import Mathlib

/-!
Shallow embedding of the GBCE trading assignment (`gbce_trading.py` together
with `gbce_trading_config.py`).

Modelling conventions:
* Python numbers (ints and floats) are modelled by `ℚ`; trade quantities by `ℤ`.
* A raised Python exception is an `Except PyErr` error value; the distinct
  `ValueError` messages of the source (symbol not found, bad price, trade
  symbol mismatch) are kept apart as distinct `PyErr` constructors.
* Python `None` results are `Option.none`.
* Timestamps are rationals measured in minutes.
* A Python string object is a `PyStr`: `val` is its character content
  (what `==` compares) and `id` its object identity (what `is` compares).
  Two distinct objects may carry equal `val`s.
* `EXCHANGE_STOCKS` (a dict keyed by symbol strings) is an association list
  `Registry`; dict membership and lookup compare keys by string value, so the
  keys are modelled by the string values themselves.
* Python evaluates a `def`'s default-argument expressions once, when the `def`
  is executed; the value `datetime.datetime.now()` frozen into
  `Trade.__init__`'s signature at module-load time is passed to `tradeInit`
  explicitly as `defaultTimestamp`.
-/

/-- `gbce_trading_config.StockType.COMMON`. -/
def StockType.COMMON : String := "Common"

/-- `gbce_trading_config.StockType.PREFERRED`. -/
def StockType.PREFERRED : String := "Preferred"

/-- `gbce_trading_config.TradeType.BUY`. -/
def TradeType.BUY : String := "Buy"

/-- `gbce_trading_config.TradeType.SELL`. -/
def TradeType.SELL : String := "Sell"

/-- `gbce_trading_config.THRESHOLD_MINUTES = 5`. -/
def THRESHOLD_MINUTES : ℚ := 5

/-- `gbce_trading_config.TIME_INTERVAL = timedelta(minutes=THRESHOLD_MINUTES)`,
in minutes. -/
def TIME_INTERVAL : ℚ := THRESHOLD_MINUTES

/-- The Python exceptions the source can raise.  `notFoundError`,
`validationError` and `mismatchError` are all `ValueError`s in the source,
distinguished by their messages. -/
inductive PyErr where
  | notFoundError
  | validationError
  | mismatchError
  | typeError
  | zeroDivisionError
deriving DecidableEq

/-- A Python string object: `val` is compared by `==`, `id` by `is`. -/
structure PyStr where
  id : ℕ
  val : String
deriving DecidableEq

/-- The fields stored on a constructed `Trade` instance. -/
structure Trade where
  symbol : PyStr
  quantity : ℤ
  tradeType : String
  price : ℚ
  timestamp : ℚ
deriving DecidableEq

/-- `Trade.totalPrice` property: `self.quantity * self.price`. -/
def Trade.totalPrice (t : Trade) : ℚ := (t.quantity : ℚ) * t.price

/-- `Trade.__init__(self, symbol, quantity, tradeType, price,
timestamp=datetime.datetime.now())`.  `defaultTimestamp` is the value of
`datetime.datetime.now()` evaluated once at module-load time (Python
default-argument semantics); `timestamp = none` is a call that omits the
argument.  The quantity check runs first, then the price check; a failed
check raises `ValueError` and no `Trade` object is produced. -/
def tradeInit (defaultTimestamp : ℚ) (symbol : PyStr) (quantity : ℤ)
    (tradeType : String) (price : ℚ) (timestamp : Option ℚ) :
    Except PyErr Trade :=
  if quantity > 0 then
    if price > 0 then
      .ok { symbol := symbol, quantity := quantity, tradeType := tradeType,
            price := price, timestamp := timestamp.getD defaultTimestamp }
    else .error .validationError
  else .error .validationError

/-- The mutable state of a `Stock` object: its symbol string object and the
`self.trades` list. -/
structure Stock where
  symbol : PyStr
  trades : List Trade

/-- `Stock.recordTrade(self, trade)`.  The `isinstance(trade, Trade)` guard is
vacuous in the typed embedding.  The source then runs
`elif self.symbol is not trade.symbol: raise ValueError(...)` — an *identity*
comparison of the two string objects — and otherwise appends the trade to
`self.trades` (mirrored into `EXCHANGE_STOCKS`). -/
def recordTrade (stock : Stock) (trade : Trade) : Except PyErr Stock :=
  if stock.symbol.id == trade.symbol.id then
    .ok { stock with trades := stock.trades ++ [trade] }
  else .error .mismatchError

/-- One value of the `EXCHANGE_STOCKS` dict: the per-symbol record built by
`Stock.addStockDetails`. -/
structure StockRecord where
  type : String
  lastDividend : ℚ
  fixedDividend : Option ℚ
  parValue : ℚ
  trades : List Trade
deriving DecidableEq

/-- The `EXCHANGE_STOCKS` dict (or a private view handed to `GBCETrading`):
an insertion-ordered association list with value-equal keys unique. -/
abbrev Registry := List (String × StockRecord)

/-- Dict lookup `stocks[symbol]` as an `Option`; `none` means the membership
test `symbol in stocks` fails. -/
def lookupStock (stocks : Registry) (symbol : String) : Option StockRecord :=
  (stocks.find? (fun p => p.1 == symbol)).map (fun p => p.2)

/-- Dict assignment `stocks[symbol] = rec`: replace the entry in place when
the key is present, append otherwise (Python 3.7+ dict order semantics). -/
def setStock (stocks : Registry) (symbol : String) (rec : StockRecord) :
    Registry :=
  if stocks.any (fun p => p.1 == symbol) then
    stocks.map (fun p => if p.1 == symbol then (symbol, rec) else p)
  else stocks ++ [(symbol, rec)]

/-- `Stock.addStockDetails(self, type, lastDividend, parValue,
fixedDividend=None)`: stores
`fixedDividend / 100 if fixedDividend else fixedDividend` (a falsy
`fixedDividend`, i.e. `None` or `0`, is stored unchanged), together with the
other fields and `self.trades`, under `self.symbol`. -/
def addStockDetails (stocks : Registry) (symbol : String) (type : String)
    (lastDividend : ℚ) (parValue : ℚ) (fixedDividend : Option ℚ)
    (trades : List Trade) : Registry :=
  setStock stocks symbol
    { type := type
      lastDividend := lastDividend
      fixedDividend :=
        match fixedDividend with
        | none => none
        | some f => if f = 0 then some f else some (f / 100)
      parValue := parValue
      trades := trades }

/-- `GBCETrading.getDividendYield(self, symbol, price)`.  Checks membership
(`ValueError` "not present"), then that the price is a number `≥ 0`
(`ValueError` "must be a positive number"): a non-numeric price is the
argument `none`.  For a `Common` stock it returns
`lastDividend / price`, for any other type
`(fixedDividend * parValue) / price`; a `ZeroDivisionError` at `price = 0` is
caught and `None` returned, while `None * parValue` (a `Preferred` record
whose fixed dividend was never supplied) raises an uncaught `TypeError`
before the division happens. -/
def getDividendYield (stocks : Registry) (symbol : String)
    (price : Option ℚ) : Except PyErr (Option ℚ) :=
  match lookupStock stocks symbol with
  | none => .error .notFoundError
  | some stockRecord =>
    match price with
    | none => .error .validationError
    | some p =>
      if p < 0 then .error .validationError
      else if stockRecord.type = StockType.COMMON then
        if p = 0 then .ok none
        else .ok (some (stockRecord.lastDividend / p))
      else
        match stockRecord.fixedDividend with
        | none => .error .typeError
        | some fd =>
          if p = 0 then .ok none
          else .ok (some (fd * stockRecord.parValue / p))

/-- `GBCETrading.getPERatio(self, symbol, price)`.  Repeats the membership and
price validation of `getDividendYield`, then computes
`price / self.getDividendYield(symbol, price)`, catching `ZeroDivisionError`
(a zero yield) and `TypeError` (a `None` yield, or a `TypeError` escaping
`getDividendYield`) into a `None` result. -/
def getPERatio (stocks : Registry) (symbol : String) (price : Option ℚ) :
    Except PyErr (Option ℚ) :=
  match lookupStock stocks symbol with
  | none => .error .notFoundError
  | some _ =>
    match price with
    | none => .error .validationError
    | some p =>
      if p < 0 then .error .validationError
      else
        match getDividendYield stocks symbol price with
        | .error .typeError => .ok none
        | .error e => .error e
        | .ok none => .ok none
        | .ok (some dy) =>
          if dy = 0 then .ok none
          else .ok (some (p / dy))

/-- `GBCETrading.getVolumeWeightedStockPrice(self, symbol)` with the
`datetime.datetime.now()` read at call time passed in as `now`.  Filters the
stock's trades to `trade.timestamp >= currentTime - TIME_INTERVAL`; with no
qualifying trade the result stays `None`, otherwise it is
`sum(totalPrices) / sum(quantities)` (an uncaught `ZeroDivisionError` if the
qualifying quantities summed to zero, impossible for constructor-built
trades). -/
def getVolumeWeightedStockPrice (stocks : Registry) (symbol : String)
    (now : ℚ) : Except PyErr (Option ℚ) :=
  match lookupStock stocks symbol with
  | none => .error .notFoundError
  | some stockRecord =>
    let requiredTrades :=
      stockRecord.trades.filter (fun t => now - TIME_INTERVAL ≤ t.timestamp)
    if requiredTrades.length > 0 then
      let sq : ℤ := (requiredTrades.map Trade.quantity).sum
      if sq = 0 then .error .zeroDivisionError
      else .ok (some ((requiredTrades.map Trade.totalPrice).sum / (sq : ℚ)))
    else .ok none

/-- The list comprehension
`[self.getVolumeWeightedStockPrice(symbol) for symbol in self.stocks]`: an
exception raised by any element aborts the whole list. -/
def mapExcept (f : α → Except PyErr β) : List α → Except PyErr (List β)
  | [] => .ok []
  | a :: as =>
    match f a with
    | .error e => .error e
    | .ok b =>
      match mapExcept f as with
      | .error e => .error e
      | .ok bs => .ok (b :: bs)

/-- `GBCETrading.getGBCEAllShareIndex(self)` at wall-clock time `now`.
Computes every symbol's volume-weighted stock price; if `None` is among them
the index stays `None`; otherwise the source computes
`reduce(operator.mul, volumeWeightedStockPrices, 1)` and raises an uncaught
`ZeroDivisionError` from the exponent `1/len(self.stocks)` when the registry
view is empty, else returns `product ** (1/len(self.stocks))` (real-valued
exponentiation). -/
noncomputable def getGBCEAllShareIndex (stocks : Registry) (now : ℚ) :
    Except PyErr (Option ℝ) :=
  match mapExcept (fun p => getVolumeWeightedStockPrice stocks p.1 now)
      stocks with
  | .error e => .error e
  | .ok volumeWeightedStockPrices =>
    if none ∈ volumeWeightedStockPrices then .ok none
    else
      let product : ℚ :=
        volumeWeightedStockPrices.reduceOption.foldl (fun a b => a * b) 1
      if stocks.length = 0 then .error .zeroDivisionError
      else .ok (some ((product : ℝ) ^ ((1 : ℝ) / (stocks.length : ℝ))))

/-- The specification's geometric mean of a list of values:
`(product of the values) ^ (1 / count of values)`. -/
noncomputable def geometricMean (vs : List ℚ) : ℝ :=
  ((vs.foldl (fun a b => a * b) 1 : ℚ) : ℝ) ^ ((1 : ℝ) / (vs.length : ℝ))

/-- Replacing the entry for a present key makes it what `find?` returns. -/
theorem find_map_replace (stocks : Registry) (symbol : String)
    (rec : StockRecord) (h : stocks.any (fun p => p.1 == symbol) = true) :
    (stocks.map (fun p => if p.1 == symbol then (symbol, rec) else p)).find?
      (fun p => p.1 == symbol) = some (symbol, rec) := by
  induction stocks with
  | nil => simp at h
  | cons hd tl ih =>
    rw [List.any_cons] at h
    rw [List.map_cons]
    by_cases hc : (hd.1 == symbol) = true
    · rw [if_pos hc]
      exact List.find?_cons_of_pos _ (by simp)
    · have hc2 : (hd.1 == symbol) = false := by
        cases hb : (hd.1 == symbol) with
        | true => exact absurd hb hc
        | false => rfl
      rw [hc2] at h
      simp only [Bool.false_or] at h
      rw [if_neg hc,
        List.find?_cons_of_neg (p := fun q : String × StockRecord => q.1 == symbol) _ hc]
      exact ih h

/-- Appending an entry for an absent key makes it what `find?` returns. -/
theorem find_append_new (stocks : Registry) (symbol : String)
    (rec : StockRecord) (h : stocks.any (fun p => p.1 == symbol) = false) :
    (stocks ++ [(symbol, rec)]).find? (fun p => p.1 == symbol)
      = some (symbol, rec) := by
  induction stocks with
  | nil => exact List.find?_cons_of_pos _ (by simp)
  | cons hd tl ih =>
    rw [List.any_cons] at h
    cases hc : (hd.1 == symbol) with
    | true => rw [hc] at h; simp at h
    | false =>
      rw [hc] at h
      simp only [Bool.false_or] at h
      rw [List.cons_append,
        List.find?_cons_of_neg (p := fun q : String × StockRecord => q.1 == symbol) _
          (by show ¬(hd.1 == symbol) = true
              rw [hc]; exact Bool.false_ne_true)]
      exact ih h

/-- Dict lookup after dict assignment of the same key yields the new record. -/
theorem lookupStock_setStock (stocks : Registry) (symbol : String)
    (rec : StockRecord) :
    lookupStock (setStock stocks symbol rec) symbol = some rec := by
  unfold lookupStock setStock
  cases h : stocks.any (fun p => p.1 == symbol) with
  | true => rw [if_pos rfl, find_map_replace stocks symbol rec h]; rfl
  | false =>
    rw [if_neg Bool.false_ne_true, find_append_new stocks symbol rec h]
    rfl

/-- A nonempty list of trades with positive quantities has positive total
quantity. -/
theorem sum_quantities_pos (l : List Trade)
    (h : ∀ t ∈ l, 0 < t.quantity) (hne : l ≠ []) :
    0 < (l.map Trade.quantity).sum := by
  induction l with
  | nil => exact absurd rfl hne
  | cons hd tl ih =>
    rw [List.map_cons, List.sum_cons]
    have hq := h hd (List.mem_cons_self _ _)
    rcases eq_or_ne tl [] with h1 | h1
    · subst h1; simpa using hq
    · have h2 := ih (fun t ht => h t (List.mem_cons_of_mem _ ht)) h1
      linarith

/-- A successful `mapExcept` preserves the length of the list. -/
theorem mapExcept_length (f : α → Except PyErr β) (l : List α) (bs : List β)
    (h : mapExcept f l = .ok bs) : bs.length = l.length := by
  induction l generalizing bs with
  | nil =>
    unfold mapExcept at h
    cases h
    rfl
  | cons a as ih =>
    unfold mapExcept at h
    cases hfa : f a with
    | error e => rw [hfa] at h; simp at h
    | ok b =>
      rw [hfa] at h
      cases hrest : mapExcept f as with
      | error e => rw [hrest] at h; simp at h
      | ok bs2 =>
        rw [hrest] at h
        cases h
        simp [ih bs2 hrest]

/-- `reduceOption` keeps the length of a list that holds no `none`. -/
theorem reduceOption_length_eq (l : List (Option α)) (h : none ∉ l) :
    l.reduceOption.length = l.length := by
  induction l with
  | nil => rfl
  | cons hd tl ih =>
    cases hd with
    | none => exact absurd (List.mem_cons_self _ _) h
    | some v =>
      rw [List.reduceOption_cons_of_some]
      simp only [List.length_cons]
      rw [ih (fun hmem => h (List.mem_cons_of_mem _ hmem))]

/-- Claim C9: a `Trade` construction succeeds exactly when `quantity > 0` and
`price > 0`; a non-positive quantity or price fails construction with a
validation error, and every `Trade` the constructor produces has positive
quantity and price. -/
theorem C9_trade_construction (defTime : ℚ) (sym : PyStr) (q : ℤ)
    (tt : String) (p : ℚ) (ts : Option ℚ) :
    ((0 < q ∧ 0 < p) ↔ ∃ tr, tradeInit defTime sym q tt p ts = .ok tr)
    ∧ (¬(0 < q ∧ 0 < p) →
        tradeInit defTime sym q tt p ts = .error .validationError)
    ∧ (∀ tr, tradeInit defTime sym q tt p ts = .ok tr →
        0 < tr.quantity ∧ 0 < tr.price) := by
  refine ⟨⟨?_, ?_⟩, ?_, ?_⟩
  · rintro ⟨hq, hp⟩
    exact ⟨_, by unfold tradeInit; rw [if_pos hq, if_pos hp]⟩
  · rintro ⟨tr, htr⟩
    unfold tradeInit at htr
    by_cases hq : q > 0
    · by_cases hp : p > 0
      · exact ⟨hq, hp⟩
      · rw [if_pos hq, if_neg hp] at htr; cases htr
    · rw [if_neg hq] at htr; cases htr
  · intro hn
    unfold tradeInit
    by_cases hq : q > 0
    · by_cases hp : p > 0
      · exact absurd ⟨hq, hp⟩ hn
      · rw [if_pos hq, if_neg hp]
    · rw [if_neg hq]
  · intro tr htr
    unfold tradeInit at htr
    by_cases hq : q > 0
    · by_cases hp : p > 0
      · rw [if_pos hq, if_pos hp] at htr
        cases htr
        exact ⟨hq, hp⟩
      · rw [if_pos hq, if_neg hp] at htr; cases htr
    · rw [if_neg hq] at htr; cases htr

/-- Witness for C9 at a concrete input: constructing a trade of 100 shares at
price 120.5 succeeds. -/
theorem C9_trade_construction_witness :
    ∃ tr, tradeInit 0 ⟨0, "TEA"⟩ 100 TradeType.BUY (241/2) none = .ok tr :=
  (C9_trade_construction 0 ⟨0, "TEA"⟩ 100 TradeType.BUY (241/2) none).1.mp
    (by norm_num)

/-- Claim C4 (code bug): the source freezes `datetime.datetime.now()` into the
default of `Trade.__init__` when the class body is executed, so a `Trade`
constructed without an explicit timestamp always stores the module-load time
`defTime`; the moment of construction is never consulted, hence the stored
timestamp differs from the construction time for every construction that does
not happen at exactly `defTime`. -/
theorem C4_default_timestamp (defTime : ℚ) (sym : PyStr) (tt : String) :
    tradeInit defTime sym 100 tt (241/2) none
      = .ok { symbol := sym, quantity := 100, tradeType := tt,
              price := 241/2, timestamp := defTime } := by
  unfold tradeInit
  norm_num

/-- Claim C5 (code bug): `Stock.recordTrade` compares symbols with
`self.symbol is not trade.symbol` — object identity, not string equality —
so a trade whose symbol is an equal-valued but distinct string object is
rejected with the mismatch `ValueError` instead of being appended. -/
theorem C5_recordTrade_identity :
    (PyStr.mk 0 "TEA").val = (PyStr.mk 1 "TEA").val
    ∧ recordTrade ⟨⟨0, "TEA"⟩, []⟩
        { symbol := ⟨1, "TEA"⟩, quantity := 100, tradeType := TradeType.BUY,
          price := 241/2, timestamp := 0 }
        = .error .mismatchError :=
  ⟨rfl, rfl⟩

/-- Claim C10: on an empty registry view `getGBCEAllShareIndex` raises the
`ZeroDivisionError` coming from the exponent `1/len(self.stocks)` instead of
returning a number or `None`. -/
theorem C10_empty_registry_index (now : ℚ) :
    getGBCEAllShareIndex [] now = .error .zeroDivisionError := by
  unfold getGBCEAllShareIndex mapExcept
  simp

/-- Claim C6: for a registered stock (which, per the data model, is `Common`
or carries a stored fixed dividend when it is not), `getDividendYield` at
price 0 returns `None` — the zero denominator is a caught
`ZeroDivisionError`, not a raised exception. -/
theorem C6_dividendYield_zero_price (stocks : Registry) (symbol : String)
    (rec : StockRecord) (hrec : lookupStock stocks symbol = some rec)
    (hwf : rec.type = StockType.COMMON ∨ rec.fixedDividend.isSome) :
    getDividendYield stocks symbol (some 0) = .ok none := by
  unfold getDividendYield
  rw [hrec]
  rcases hwf with h | h
  · simp [h]
  · rcases Option.isSome_iff_exists.mp h with ⟨fd, hfd⟩
    by_cases hc : rec.type = StockType.COMMON <;> simp [hc, hfd]

/-- Witness for C6 at a concrete input: a `Common` stock queried at price 0. -/
theorem C6_dividendYield_zero_price_witness :
    getDividendYield [("POP", ⟨StockType.COMMON, 8, none, 100, []⟩)] "POP"
      (some 0) = .ok none :=
  C6_dividendYield_zero_price _ "POP" _ rfl (Or.inl rfl)

/-- With the symbol present, a yield query at price 0 ends in `None` or in
the uncaught `TypeError` of a missing fixed dividend — never in the
validation `ValueError`. -/
theorem dividendYield_zero_cases (stocks : Registry) (symbol : String)
    (rec : StockRecord) (hrec : lookupStock stocks symbol = some rec) :
    getDividendYield stocks symbol (some 0) = .ok none
    ∨ getDividendYield stocks symbol (some 0) = .error .typeError := by
  simp only [getDividendYield, hrec, if_neg (show ¬(0:ℚ) < 0 by norm_num)]
  by_cases hc : rec.type = StockType.COMMON
  · simp only [if_pos hc, if_pos rfl]
    exact Or.inl rfl
  · simp only [if_neg hc]
    cases hfd : rec.fixedDividend with
    | none => exact Or.inr rfl
    | some fd =>
      simp only [if_pos rfl]
      exact Or.inl rfl

/-- Claim C7: for a registered stock and a validated price `p`, `getPERatio`
returns `p` divided by the dividend yield when the yield is a nonzero
number, and returns `None` (rather than raising) when the yield is `None`
or zero. -/
theorem C7_peRatio_div_yield (stocks : Registry) (symbol : String)
    (rec : StockRecord) (p : ℚ)
    (hrec : lookupStock stocks symbol = some rec) (hp : 0 ≤ p) :
    (∀ dy, getDividendYield stocks symbol (some p) = .ok (some dy) → dy ≠ 0 →
        getPERatio stocks symbol (some p) = .ok (some (p / dy)))
    ∧ (getDividendYield stocks symbol (some p) = .ok none →
        getPERatio stocks symbol (some p) = .ok none)
    ∧ (∀ dy, getDividendYield stocks symbol (some p) = .ok (some dy) → dy = 0 →
        getPERatio stocks symbol (some p) = .ok none) := by
  have hnp : ¬ p < 0 := not_lt.mpr hp
  refine ⟨?_, ?_, ?_⟩
  · intro dy hdy hne
    simp only [getPERatio, hrec, if_neg hnp, hdy, if_neg hne]
  · intro hdy
    simp only [getPERatio, hrec, if_neg hnp, hdy]
  · intro dy hdy hzero
    simp only [getPERatio, hrec, if_neg hnp, hdy, if_pos hzero]

/-- Witness for C7 at a concrete input: the `Common` stock `ALE`
(`lastDividend = 23`) at price 88 has yield `23/88`, so the P/E ratio is
`88 / (23/88)`. -/
theorem C7_peRatio_div_yield_witness :
    getPERatio [("ALE", ⟨StockType.COMMON, 23, none, 60, []⟩)] "ALE"
      (some 88) = .ok (some (88 / (23 / 88))) :=
  (C7_peRatio_div_yield [("ALE", ⟨StockType.COMMON, 23, none, 60, []⟩)]
      "ALE" ⟨StockType.COMMON, 23, none, 60, []⟩ 88
      rfl (by norm_num)).1 (23 / 88) rfl (by norm_num)

/-- Claim C8: `getDividendYield` and `getPERatio` fail with the not-found
`ValueError` when the symbol is absent; with the symbol present they fail
with the validation `ValueError` for a non-numeric or negative price, while
price 0 passes this validation (whatever else happens at price 0, it is
never the validation error). -/
theorem C8_query_validation (stocks : Registry) (symbol : String) :
    (lookupStock stocks symbol = none →
      ∀ price, getDividendYield stocks symbol price = .error .notFoundError
        ∧ getPERatio stocks symbol price = .error .notFoundError)
    ∧ (∀ rec, lookupStock stocks symbol = some rec →
        (getDividendYield stocks symbol none = .error .validationError
        ∧ getPERatio stocks symbol none = .error .validationError
        ∧ (∀ p : ℚ, p < 0 →
            getDividendYield stocks symbol (some p) = .error .validationError
            ∧ getPERatio stocks symbol (some p) = .error .validationError)
        ∧ getDividendYield stocks symbol (some 0) ≠ .error .validationError
        ∧ getPERatio stocks symbol (some 0) ≠ .error .validationError)) := by
  have h0 : ¬ (0:ℚ) < 0 := by norm_num
  constructor
  · intro habs price
    exact ⟨by simp only [getDividendYield, habs],
      by simp only [getPERatio, habs]⟩
  · intro rec hrec
    refine ⟨?_, ?_, ?_, ?_, ?_⟩
    · simp only [getDividendYield, hrec]
    · simp only [getPERatio, hrec]
    · intro p hneg
      exact ⟨by simp only [getDividendYield, hrec, if_pos hneg],
        by simp only [getPERatio, hrec, if_pos hneg]⟩
    · rcases dividendYield_zero_cases stocks symbol rec hrec with hdy | hdy <;>
        rw [hdy] <;> simp
    · rcases dividendYield_zero_cases stocks symbol rec hrec with hdy | hdy <;>
        simp only [getPERatio, hrec, if_neg h0, hdy] <;> simp

/-- Witness for C8 at a concrete input: the empty registry view rejects every
query with the not-found error. -/
theorem C8_query_validation_witness :
    getDividendYield [] "XYZ" (some (247/10)) = .error .notFoundError
    ∧ getPERatio [] "XYZ" (some (247/10)) = .error .notFoundError :=
  (C8_query_validation [] "XYZ").1 rfl (some (247/10))

/-- Claim C1: for a registered stock and a price > 0, the dividend yield of a
`Common` stock is `lastDividend / price`, and a stock registered as
`Preferred` with fixed dividend percentage `fdp` yields
`(fdp / 100) * parValue / price`, the division by 100 having been applied
once by `addStockDetails`. -/
theorem C1_dividendYield (stocks : Registry) (symbol : String) (price : ℚ)
    (hp : 0 < price) :
    (∀ rec, lookupStock stocks symbol = some rec →
        rec.type = StockType.COMMON →
        getDividendYield stocks symbol (some price)
          = .ok (some (rec.lastDividend / price)))
    ∧ (∀ lastDividend parValue fdp trades,
        getDividendYield
            (addStockDetails stocks symbol StockType.PREFERRED lastDividend
              parValue (some fdp) trades)
            symbol (some price)
          = .ok (some (fdp / 100 * parValue / price))) := by
  have hnp : ¬ price < 0 := not_lt.mpr hp.le
  have hnz : ¬ price = 0 := hp.ne'
  constructor
  · intro rec hrec hcommon
    simp only [getDividendYield, hrec, if_neg hnp, if_pos hcommon, if_neg hnz]
  · intro lastDividend parValue fdp trades
    have hrec : lookupStock
        (addStockDetails stocks symbol StockType.PREFERRED lastDividend
          parValue (some fdp) trades) symbol
        = some { type := StockType.PREFERRED, lastDividend := lastDividend,
                 fixedDividend :=
                   if fdp = 0 then some fdp else some (fdp / 100),
                 parValue := parValue, trades := trades } := by
      simp only [addStockDetails]
      exact lookupStock_setStock _ _ _
    have hpref : ¬ (StockType.PREFERRED = StockType.COMMON) := by decide
    by_cases hz : fdp = 0
    · rw [if_pos hz] at hrec
      simp only [getDividendYield, hrec, if_neg hnp, if_neg hpref, if_neg hnz]
      rw [hz]
      norm_num
    · rw [if_neg hz] at hrec
      simp only [getDividendYield, hrec, if_neg hnp, if_neg hpref, if_neg hnz]

/-- Witness for C1 at a concrete input: the `Common` stock `POP`
(`lastDividend = 8`) at price 160 yields `8/160`. -/
theorem C1_dividendYield_witness :
    getDividendYield [("POP", ⟨StockType.COMMON, 8, none, 100, []⟩)] "POP"
      (some 160) = .ok (some (8 / 160)) :=
  (C1_dividendYield [("POP", ⟨StockType.COMMON, 8, none, 100, []⟩)] "POP" 160
      (by norm_num)).1 ⟨StockType.COMMON, 8, none, 100, []⟩ rfl rfl

/-- Claim C2: at evaluation time `now`, the volume-weighted stock price of a
registered stock keeps exactly the trades with
`timestamp ≥ now - TIME_INTERVAL` (inclusive lower bound of the trailing
5-minute window): with no qualifying trade the result is `None`, otherwise
it is the sum of the qualifying `totalPrice`s divided by the sum of the
qualifying quantities. -/
theorem C2_volumeWeightedStockPrice (stocks : Registry) (symbol : String)
    (now : ℚ) (rec : StockRecord)
    (hrec : lookupStock stocks symbol = some rec)
    (hq : ∀ t ∈ rec.trades, 0 < t.quantity) :
    (rec.trades.filter (fun t => now - TIME_INTERVAL ≤ t.timestamp) = [] →
        getVolumeWeightedStockPrice stocks symbol now = .ok none)
    ∧ (∀ qual,
        rec.trades.filter (fun t => now - TIME_INTERVAL ≤ t.timestamp)
          = qual →
        qual ≠ [] →
        getVolumeWeightedStockPrice stocks symbol now
          = .ok (some ((qual.map Trade.totalPrice).sum
              / ((qual.map Trade.quantity).sum : ℚ)))) := by
  constructor
  · intro hempty
    simp only [getVolumeWeightedStockPrice, hrec, hempty]
    norm_num
  · intro qual hqual hne
    have hmem : ∀ t ∈ qual, 0 < t.quantity := by
      intro t ht
      rw [← hqual] at ht
      exact hq t (List.mem_of_mem_filter ht)
    have hpos := sum_quantities_pos qual hmem hne
    have hlen : qual.length > 0 := List.length_pos.mpr hne
    simp only [getVolumeWeightedStockPrice, hrec, hqual]
    rw [if_pos hlen, if_neg hpos.ne']

/-- Witness for C2 at a concrete input: two qualifying trades
(100 shares at 120.5 and 50 shares at 125.4, both at time 0, queried at
time 0) give `18320 / 150 = 1832/15`. -/
theorem C2_volumeWeightedStockPrice_witness :
    getVolumeWeightedStockPrice
        [("TEA", ⟨StockType.COMMON, 0, none, 100,
          [⟨⟨0, "TEA"⟩, 100, TradeType.BUY, 241/2, 0⟩,
           ⟨⟨0, "TEA"⟩, 50, TradeType.SELL, 627/5, 0⟩]⟩)] "TEA" 0
      = .ok (some (1832 / 15)) := by
  have h := (C2_volumeWeightedStockPrice
      [("TEA", ⟨StockType.COMMON, 0, none, 100,
        [⟨⟨0, "TEA"⟩, 100, TradeType.BUY, 241/2, 0⟩,
         ⟨⟨0, "TEA"⟩, 50, TradeType.SELL, 627/5, 0⟩]⟩)] "TEA" 0
      ⟨StockType.COMMON, 0, none, 100,
        [⟨⟨0, "TEA"⟩, 100, TradeType.BUY, 241/2, 0⟩,
         ⟨⟨0, "TEA"⟩, 50, TradeType.SELL, 627/5, 0⟩]⟩
      rfl (by decide)).2
    [⟨⟨0, "TEA"⟩, 100, TradeType.BUY, 241/2, 0⟩,
     ⟨⟨0, "TEA"⟩, 50, TradeType.SELL, 627/5, 0⟩]
    (by norm_num [List.filter_cons, TIME_INTERVAL, THRESHOLD_MINUTES])
    (by simp)
  rw [h]
  simp [Trade.totalPrice]
  norm_num

/-- Claim C3: when no per-symbol query raises, the all-share index is `None`
as soon as one volume-weighted stock price is `None`, and otherwise (on a
nonempty view) equals the geometric mean of all the volume-weighted stock
prices: their product raised to the power `1 / (number of symbols)`. -/
theorem C3_allShareIndex (stocks : Registry) (now : ℚ)
    (vwsps : List (Option ℚ))
    (hmap : mapExcept (fun p => getVolumeWeightedStockPrice stocks p.1 now)
        stocks = .ok vwsps) :
    (none ∈ vwsps → getGBCEAllShareIndex stocks now = .ok none)
    ∧ (none ∉ vwsps → stocks ≠ [] →
        getGBCEAllShareIndex stocks now
          = .ok (some (geometricMean vwsps.reduceOption))) := by
  constructor
  · intro hmem
    simp only [getGBCEAllShareIndex, hmap, if_pos hmem]
  · intro hmem hne
    have hlen0 : ¬ stocks.length = 0 := by
      simpa using (List.length_pos.mpr hne).ne'
    simp only [getGBCEAllShareIndex, hmap, if_neg hmem, if_neg hlen0]
    unfold geometricMean
    rw [reduceOption_length_eq vwsps hmem, mapExcept_length _ _ _ hmap]

/-- Witness for C3 at a concrete input: one stock whose only trade gives a
volume-weighted price of 3 makes the index the geometric mean of `[3]`. -/
theorem C3_allShareIndex_witness :
    getGBCEAllShareIndex
        [("TEA", ⟨StockType.COMMON, 0, none, 100,
          [⟨⟨0, "TEA"⟩, 2, TradeType.BUY, 3, 0⟩]⟩)] 0
      = .ok (some (geometricMean [3])) := by
  have hv : getVolumeWeightedStockPrice
      [("TEA", ⟨StockType.COMMON, 0, none, 100,
        [⟨⟨0, "TEA"⟩, 2, TradeType.BUY, 3, 0⟩]⟩)] "TEA" 0
      = .ok (some 3) := by
    simp [getVolumeWeightedStockPrice, lookupStock, List.filter_cons,
      TIME_INTERVAL, THRESHOLD_MINUTES, Trade.totalPrice]
  have hmap : mapExcept
      (fun p : String × StockRecord => getVolumeWeightedStockPrice
        [("TEA", ⟨StockType.COMMON, 0, none, 100,
          [⟨⟨0, "TEA"⟩, 2, TradeType.BUY, 3, 0⟩]⟩)] p.1 0)
      [("TEA", ⟨StockType.COMMON, 0, none, 100,
        [⟨⟨0, "TEA"⟩, 2, TradeType.BUY, 3, 0⟩]⟩)]
      = .ok [some 3] := by
    simp only [mapExcept, hv]
  have h := (C3_allShareIndex
      [("TEA", ⟨StockType.COMMON, 0, none, 100,
        [⟨⟨0, "TEA"⟩, 2, TradeType.BUY, 3, 0⟩]⟩)] 0
      [some 3] hmap).2 (by simp) (by simp)
  rw [h]
  simp [List.reduceOption]

/-- Witness for C10 at a concrete evaluation time. -/
theorem C10_empty_registry_index_witness :
    getGBCEAllShareIndex [] 0 = .error .zeroDivisionError :=
  C10_empty_registry_index 0
